import Mathlib

/-!
# gnmi-pg: transport setup, credential attachment and the Get / Capabilities tools

A shallow embedding of `gnmilib/gnmilib.go`, `gnmi-get/gnmi-get.go` and
`gnmi-capability/gnmi-cap.go`.

Go values are embedded as follows.

* `string` is `String`; `len(s)` is the byte length `String.utf8ByteSize`.
* `[]byte` is `List Nat`.
* An `error` is `Option String`: `none` is the nil error, `some msg` an error
  whose `Error()` text is `msg`.
* A pointer that may be nil is an `Option`.
* Calls into the Go standard library, gRPC, gnxi and protobuf are parameters,
  collected in the structures `World` (file system, X.509 parsing and the
  release of gRPC linked) and `Env` (dialling, the Get RPC, xpath parsing,
  text rendering).
* File-system reads are recorded in an explicit log of the paths accessed.
-/

namespace GnmiPg

/-- Go `len(s)` for a string `s`: its length in bytes. -/
def len (s : String) : Nat := s.utf8ByteSize

/-- Go `[]byte`. -/
abbrev Bytes := List Nat

/-! ## Standard-library values used by the transport setup -/

/-- What a path names on the file system, as far as `os.Open`, `ioutil.ReadAll`
and `os.ReadFile` can tell. -/
inductive FileEntry where
  /-- Opening the path fails with this error. -/
  | absent (err : String)
  /-- Opening succeeds, reading the opened file fails with this error. -/
  | unreadable (err : String)
  /-- Opening and reading succeed and give these bytes. -/
  | content (bs : Bytes)
  deriving DecidableEq, Repr

/-- Go `x509.Certificate`, kept as the DER bytes it was parsed from. -/
structure X509Certificate where
  Raw : Bytes
  deriving DecidableEq, Repr

/-- Go `x509.CertPool`: the DER certificates added to it, in order. -/
structure CertPool where
  certs : List Bytes
  deriving DecidableEq, Repr

/-- Go `tls.Certificate`. The chain `Certificate [][]byte` of a key pair that
`tls.X509KeyPair` returned without error is never empty, so it is kept as its
first element `Certificate0` (the leaf, `Certificate[0]` in the source) and the
remaining elements `CertificateRest`. -/
structure TLSCertificate where
  Certificate0 : Bytes
  CertificateRest : List Bytes
  PrivateKey : Bytes
  Leaf : Option X509Certificate
  deriving DecidableEq, Repr

/-- Go `tls.VersionTLS12`. -/
def VersionTLS12 : Nat := 0x0303

/-- Go `tls.Config`, the fields the source assigns. `default` is the zero
value `tls.Config{}`. -/
structure TLSConfig where
  InsecureSkipVerify : Bool := false
  ServerName : String := ""
  RootCAs : Option CertPool := none
  Certificates : List TLSCertificate := []
  MinVersion : Nat := 0
  deriving DecidableEq, Repr

/-- Go `credentials.TransportCredentials`, as built by the source:
`insecure.NewCredentials()`, or TLS credentials wrapping a configuration `cfg`
(what `credentials.NewTLS` returns, see `World.NewTLS`). -/
inductive TransportCredentials where
  | insecure
  | tls (cfg : TLSConfig)
  deriving DecidableEq, Repr

/-- Go `grpc.DialOption`; the source only builds
`grpc.WithTransportCredentials`. -/
inductive DialOption where
  | WithTransportCredentials (creds : TransportCredentials)
  deriving DecidableEq, Repr

/-- The part of the outside world the transport setup depends on: the file
system, the standard library's PEM / X.509 parsing, and the release of gRPC
the program is linked with. -/
structure World where
  /-- The file system. -/
  fs : String → FileEntry
  /-- The DER certificates that `(*x509.CertPool).AppendCertsFromPEM` finds in
  a PEM block. -/
  pemCerts : Bytes → List Bytes
  /-- Go `tls.X509KeyPair certPEMBlock keyPEMBlock`. -/
  X509KeyPair : Bytes → Bytes → Except String TLSCertificate
  /-- Go `x509.ParseCertificate der`. -/
  ParseCertificate : Bytes → Except String X509Certificate
  /-- Whether `credentials.NewTLS` of the linked gRPC release gives an unset
  `MinVersion` the value TLS 1.2: it does from grpc-go v1.60 on and does not
  before. The repository's sources name no release. -/
  newTLSDefaultsMinVersion : Bool

namespace World

/-- Go `os.Open path`: the opened file (named by its path) or an error. -/
def Open (w : World) (path : String) : Except String String :=
  match w.fs path with
  | .absent err => .error err
  | .unreadable _ => .ok path
  | .content _ => .ok path

/-- Go `ioutil.ReadAll fh` on a file opened by `Open`. -/
def ReadAll (w : World) (fh : String) : Except String Bytes :=
  match w.fs fh with
  | .absent err => .error err
  | .unreadable err => .error err
  | .content bs => .ok bs

/-- Go `os.ReadFile path`. -/
def ReadFile (w : World) (path : String) : Except String Bytes :=
  match w.Open path with
  | .error err => .error err
  | .ok fh => w.ReadAll fh

/-- Go `x509.NewCertPool()`. -/
def NewCertPool : CertPool := ⟨[]⟩

/-- Go `pool.AppendCertsFromPEM(bs)`: the pool with the certificates found in
`bs` appended, and whether any certificate was found. -/
def AppendCertsFromPEM (w : World) (pool : CertPool) (bs : Bytes) : CertPool × Bool :=
  (⟨pool.certs ++ w.pemCerts bs⟩, !(w.pemCerts bs).isEmpty)

/-- Go `tls.LoadX509KeyPair certFile keyFile`: reads the certificate file, then
the key file, then pairs them. The second component logs the paths read. -/
def LoadX509KeyPair (w : World) (certFile keyFile : String) :
    Except String TLSCertificate × List String :=
  match w.ReadFile certFile with
  | .error err => (.error err, [certFile])
  | .ok certPEMBlock =>
    match w.ReadFile keyFile with
    | .error err => (.error err, [certFile, keyFile])
    | .ok keyPEMBlock => (w.X509KeyPair certPEMBlock keyPEMBlock, [certFile, keyFile])

/-- Go `credentials.NewTLS(&c)` of gRPC: credentials wrapping a clone of the
configuration `c`. From grpc-go v1.60 on the clone gets `MinVersion = TLS 1.2`
when `c.MinVersion` is 0 and `c.MaxVersion` is 0 or at least TLS 1.2; earlier
releases keep `MinVersion` as it is. The source never assigns `MaxVersion`, so
it is 0 here. Fields that the source does not assign and that `NewTLS` also
fills (`NextProtos`, `CipherSuites`) are not part of `TLSConfig`. -/
def NewTLS (w : World) (c : TLSConfig) : TransportCredentials :=
  if w.newTLSDefaultsMinVersion && c.MinVersion == 0 then
    TransportCredentials.tls { c with MinVersion := VersionTLS12 }
  else
    TransportCredentials.tls c

end World

/-! ## gRPC metadata and contexts -/

namespace strings

/-- Go `strings.ToLower` on ASCII text (the source only passes the ASCII
literals `username` and `password` through it). -/
def ToLower (s : String) : String := String.mk (s.data.map Char.toLower)

/-- Go `strings.Contains s substr`: some suffix of `s` starts with `substr`. -/
def Contains (s substr : String) : Bool :=
  s.data.tails.any (fun t => substr.data.isPrefixOf t)

end strings

/-- Go `metadata.MD`, a `map[string][]string`, kept as an association list in
which the first binding of a key is its value. -/
abbrev MD := List (String × List String)

namespace MD

/-- Go `md[k]` with its presence flag: the values bound to `k`, if any. -/
def get (md : MD) (k : String) : Option (List String) := List.lookup k md

/-- Go `md.Set(k, vals...)`: nothing when `vals` is empty, else the values of
the lower-cased key are replaced by `vals`. -/
def Set (md : MD) (k : String) (vals : List String) : MD :=
  if vals.length == 0 then md
  else (strings.ToLower k, vals) :: md.filter (fun kv => kv.1 != strings.ToLower k)

end MD

/-- Go `context.Context`, as far as the tools use it: the timeout it was
created with and the outgoing gRPC metadata attached to it, as
`metadata.FromOutgoingContext` reports it (`none` when none is attached). -/
structure Context where
  timeout : Option Nat
  outgoingMD : Option MD
  deriving DecidableEq, Repr

namespace Context

/-- Go `context.Background()`. -/
def Background : Context := ⟨none, none⟩

/-- Go `context.WithTimeout(ctx, d)` (the cancel function is not modelled). -/
def WithTimeout (ctx : Context) (d : Nat) : Context := { ctx with timeout := some d }

/-- Go `metadata.FromOutgoingContext(ctx)`: a copy of the outgoing metadata and
whether there is any; `(nil, false)` when there is none. -/
def FromOutgoingContext (ctx : Context) : MD × Bool :=
  match ctx.outgoingMD with
  | some md => (md, true)
  | none => ([], false)

/-- Go `metadata.NewOutgoingContext(ctx, md)`. -/
def NewOutgoingContext (ctx : Context) (md : MD) : Context :=
  { ctx with outgoingMD := some md }

end Context

/-! ## gnmilib -/

namespace gnmilib

/-- Source: `type TLSInit struct`. -/
structure TLSInit where
  InsecConn : Bool
  SkipVerify : Bool
  TargetHostname : String
  RootCA : String
  Cert : String
  Key : String
  deriving DecidableEq, Repr

/-- Source: `type UserCredentials struct`. -/
structure UserCredentials where
  Username : String
  Password : String
  deriving DecidableEq, Repr

/-- What a call of `SetupGNMISecureTransport` returns, `(*[]grpc.DialOption, error)`,
together with the log of the file paths it accessed, in order. -/
structure SetupResult where
  /-- The returned pointer; `none` is nil. -/
  dOpts : Option (List DialOption)
  /-- The returned error; `none` is nil. -/
  err : Option String
  /-- The paths opened or read during the call. -/
  accessed : List String
  deriving DecidableEq, Repr

/-- Source: `func SetupGNMISecureTransport(t TLSInit) (*[]grpc.DialOption, error)`. -/
def SetupGNMISecureTransport (w : World) (t : TLSInit) : SetupResult :=
  let dOpts : List DialOption := []
  if t.InsecConn then
    -- Insecure connection setup
    let dOpts := dOpts ++ [DialOption.WithTransportCredentials TransportCredentials.insecure]
    ⟨some dOpts, none, []⟩
  else
    let tlsConfig : TLSConfig := {}
    -- Applying skipVerify
    let tlsConfig := { tlsConfig with InsecureSkipVerify := t.SkipVerify }
    if !t.SkipVerify then
      let tlsConfig := { tlsConfig with ServerName := t.TargetHostname }
      if len t.RootCA == 0 || len t.Cert == 0 || len t.Key == 0 then
        ⟨some dOpts,
          some "one of more files for rootCA / certificate / key are not specified", []⟩
      else
        -- Populating root CA certificates pool
        match w.Open t.RootCA with
        | .error err =>
          ⟨none, some ("populating root CA certificates pool: " ++ err), [t.RootCA]⟩
        | .ok fh =>
          match w.ReadAll fh with
          | .error err => ⟨none, some ("reading root CA cert: " ++ err), [t.RootCA]⟩
          | .ok bs =>
            let certCAPool := World.NewCertPool
            let (certCAPool, ok) := w.AppendCertsFromPEM certCAPool bs
            if !ok then
              ⟨none, some "can't load PEM file for rootCAt", [t.RootCA]⟩
            else
              let tlsConfig := { tlsConfig with RootCAs := some certCAPool }
              -- Loading certificate
              match w.LoadX509KeyPair t.Cert t.Key with
              | (.error err, read) =>
                ⟨none, some ("can't load certificate keypair: " ++ err), t.RootCA :: read⟩
              | (.ok certTLS, read) =>
                match w.ParseCertificate certTLS.Certificate0 with
                | .error err =>
                  ⟨none, some ("cert parsing error: " ++ err), t.RootCA :: read⟩
                | .ok leaf =>
                  let certTLS := { certTLS with Leaf := some leaf }
                  let tlsConfig := { tlsConfig with Certificates := [certTLS] }
                  -- Setting minimum version for TLS1.2
                  let tlsConfig := { tlsConfig with MinVersion := VersionTLS12 }
                  let dOpts := dOpts ++
                    [DialOption.WithTransportCredentials (w.NewTLS tlsConfig)]
                  ⟨some dOpts, none, t.RootCA :: read⟩
    else
      let dOpts := dOpts ++
        [DialOption.WithTransportCredentials (w.NewTLS tlsConfig)]
      ⟨some dOpts, none, []⟩

/-- Source: `func PopulateMDCredentials(ctx context.Context, uc UserCredentials)
(context.Context, error)`. -/
def PopulateMDCredentials (ctx : Context) (uc : UserCredentials) : Context × Option String :=
  if len uc.Username == 0 then
    (ctx, some "populateCredentials: username must be provided")
  else
    -- Retrieve MD from outgoing context
    let (md, ok) := ctx.FromOutgoingContext
    let md : MD := if !ok then [] else md
    -- Populating
    let md := md.Set "username" [uc.Username]
    let md := if len uc.Password != 0 then md.Set "password" [uc.Password] else md
    -- Creating new context with new MD or updated MD attached to it.
    (ctx.NewOutgoingContext md, none)

end gnmilib

/-! ## gNMI messages and the calls the tools make -/

namespace gnmi

/-- Go `gnmi.PathElem`. -/
structure PathElem where
  Name : String
  Key : List (String × String)
  deriving DecidableEq, Repr

/-- Go `gnmi.Path`. -/
structure Path where
  Elem : List PathElem
  deriving DecidableEq, Repr

/-- Go `gnmi.TypedValue`: the JSON_IETF case of its oneof, or any other case. -/
inductive TypedValue where
  | JsonIetfVal (bs : Bytes)
  | other (bs : Bytes)
  deriving DecidableEq, Repr

/-- Go `(*gnmi.TypedValue).GetJsonIetfVal()`: the JSON_IETF bytes, nil for a nil
receiver and for every other case. -/
def GetJsonIetfVal : Option TypedValue → Bytes
  | some (.JsonIetfVal bs) => bs
  | _ => []

/-- Go `gnmi.Update`. -/
structure Update where
  Path : Option gnmi.Path
  Val : Option TypedValue
  deriving DecidableEq, Repr

/-- Go `gnmi.Notification`. -/
structure Notification where
  Timestamp : Int
  Update : List gnmi.Update
  deriving DecidableEq, Repr

/-- Go `gnmi.GetResponse`. -/
structure GetResponse where
  Notification : List gnmi.Notification
  deriving DecidableEq, Repr

/-- Go `gnmi.GetRequest`. -/
structure GetRequest where
  Prefix : Option gnmi.Path
  Path : List gnmi.Path
  /-- The field `Type` of the source (a reserved word here). -/
  Type_ : Int
  Encoding : Int
  deriving DecidableEq, Repr

/-- Go `gnmi.CapabilityResponse`, kept as its gNMI version string. -/
structure CapabilityResponse where
  GNMIVersion : String
  deriving DecidableEq, Repr

end gnmi

/-- Go conversion of an `int` to an `int32` enumeration type. -/
def toInt32 (x : Int) : Int := (x + 2 ^ 31) % 2 ^ 32 - 2 ^ 31

/-- The calls the two tools make outside this repository. -/
structure Env where
  /-- The file system and X.509 parsing used by the transport setup. -/
  world : World
  /-- Go `grpc.Dial(target, opts...)`: its error, `none` when the connection
  (named by its target below) is created. -/
  Dial : String → List DialOption → Option String
  /-- Go `xpath.ToGNMIPath(xp)` of gnxi, which returns a nil path with every
  error it returns. -/
  ToGNMIPath : String → Except String gnmi.Path
  /-- Go `gNMIC.Get(ctx, &getReq)` on the connection to the given target. -/
  Get : String → Context → gnmi.GetRequest → Except String gnmi.GetResponse
  /-- Go `gNMIC.Capabilities(ctx, &gnmi.CapabilityRequest{})` on the
  connection to the given target. -/
  Capabilities : String → Context → Except String gnmi.CapabilityResponse
  /-- What the verb `%q` of `fmt` prints for a `*gnmi.Path`. -/
  quotePath : Option gnmi.Path → String
  /-- Go `getResp.String()`. -/
  respString : gnmi.GetResponse → String
  /-- What the verb `%s` of `fmt` prints for a `*gnmi.TypedValue`. -/
  valString : Option gnmi.TypedValue → String
  /-- Go `string(bs)`. -/
  bytesString : Bytes → String
  /-- Go `json.Indent(&buf, src, "", "    ")` followed by `buf.String()`. -/
  jsonIndent : Bytes → Except String String
  /-- Go `proto.MarshalTextString(resp)`. -/
  MarshalTextString : gnmi.CapabilityResponse → String

/-- How a run of a tool ends. -/
inductive Exit where
  /-- Function `main` returns. -/
  | ok
  /-- A `log.Fatal`, `log.Fatalf` or `log.Fatalln` call: the message is logged
  and the process exits with status 1. -/
  | fatal (msg : String)
  /-- A run-time panic nobody recovers: the process crashes. -/
  | panic (msg : String)
  deriving DecidableEq, Repr

/-- What a run of a tool did: how it ended, what it printed on standard output,
the targets it dialled and the Get requests it sent. -/
structure Run where
  exit : Exit
  stdout : List String
  dialed : List String
  rpcs : List gnmi.GetRequest
  deriving DecidableEq, Repr

/-! ## gnmi-get -/

namespace GnmiGet

/-- Source: `type multiFlag struct`. -/
structure multiFlag where
  flags : List String
  deriving DecidableEq, Repr

/-- Source: `func (f *multiFlag) Set(s string) error`: the updated receiver and
the returned error. -/
def multiFlag.Set (f : multiFlag) (s : String) : multiFlag × Option String :=
  ({ f with flags := f.flags ++ [s] }, none)

/-- The value of `xPathList` after `flag.Parse()`: package `flag` calls `Set`
once for each `-xpath` occurrence, in command-line order, on the zero value. -/
def parseXPathFlags (occurrences : List String) : multiFlag :=
  occurrences.foldl (fun f s => (f.Set s).1) ⟨[]⟩

/-- The flag variables of the Get tool after `flag.Parse()`. -/
structure Flags where
  rootCA : String
  cert : String
  key : String
  username : String
  password : String
  targetHostname : String
  targetAddr : String
  insecConn : Bool
  skipVerify : Bool
  timeout : Nat
  targetPrefix : String
  xPathList : multiFlag
  targetEncoding : Int
  dataType : Int
  deriving DecidableEq, Repr

/-- Source: `const targetPort = 57400`. -/
def targetPort : Nat := 57400

/-- Source: `main`, "Set up a connection to the server": the target address
`t` passed to `grpc.Dial`. -/
def dialTarget (targetAddr : String) : String :=
  if strings.Contains targetAddr ":" then
    targetAddr
  else
    targetAddr ++ ":" ++ toString targetPort

/-- Source: `main`, "Looping over requested xpath list": the loop over
`xPathList.flags`, started with the paths collected so far. On a parse error
it ends in `log.Fatalf("can't parse provided xpath: %q", gPath)`, where `gPath`
is the nil path that `ToGNMIPath` returned with the error. -/
def pathLoop (env : Env) : List String → List gnmi.Path → Except String (List gnmi.Path)
  | [], pathList => .ok pathList
  | xp :: rest, pathList =>
    match env.ToGNMIPath xp with
    | .error _ => .error ("can't parse provided xpath: " ++ env.quotePath none)
    | .ok gPath => pathLoop env rest (pathList ++ [gPath])

/-- Source: `main`, from "Printing message in text form into STDOUT" to the
end: how the run ends and what it prints for a Get response. -/
def handleResponse (env : Env) (getResp : gnmi.GetResponse) : Exit × List String :=
  let out1 := ["Get Response getResp.String():\n" ++ env.respString getResp ++ "\n\n"]
  match getResp.Notification with
  | [] => (.panic "runtime error: index out of range [0] with length 0", out1)
  | n0 :: _ =>
    match n0.Update with
    | [] => (.panic "runtime error: index out of range [0] with length 0", out1)
    | u0 :: _ =>
      let out2 := out1 ++
        ["Get Response value getResp.Notification[0].Update[0].Val:\n" ++
          env.valString u0.Val ++ "\n\n"]
      let respVal := gnmi.GetJsonIetfVal u0.Val
      let out3 := out2 ++
        ["Get Response value getResp.Notification[0].Update[0].Val.GetJsonIetfVal():\n" ++
          env.bytesString respVal ++ "\n\n"]
      match env.jsonIndent respVal with
      | .error err => (.fatal ("can't ident provided JSON: " ++ err), out3)
      | .ok prettyJSON => (.ok, out3 ++ [prettyJSON ++ "\n"])

/-- Source: `func main()` of `gnmi-get/gnmi-get.go`. -/
def main (env : Env) (f : Flags) : Run :=
  -- Parsing flags and validating inputs
  if len f.targetAddr == 0 then
    ⟨.fatal "addr is manadatory to provide", [], [], []⟩
  else if f.xPathList.flags.length == 0 then
    ⟨.fatal "target xpath should be provided", [], [], []⟩
  else
    -- Setting up grpc options
    let r := gnmilib.SetupGNMISecureTransport env.world
      ⟨f.insecConn, f.skipVerify, f.targetHostname, f.rootCA, f.cert, f.key⟩
    match r.err with
    | some err => ⟨.fatal err, [], [], []⟩
    | none =>
      -- Set up a connection to the server.
      let t := dialTarget f.targetAddr
      match r.dOpts with
      | none =>
        ⟨.panic "runtime error: invalid memory address or nil pointer dereference", [], [], []⟩
      | some dOpts =>
        -- Dialing ...
        match env.Dial t dOpts with
        | some err =>
          ⟨.fatal ("can't not connect to the host " ++ t ++ " due to " ++ err), [], [t], []⟩
        | none =>
          -- Creating context with timeout
          let ctx := Context.Background.WithTimeout f.timeout
          -- Attaching credentiasl to the context
          let uc : gnmilib.UserCredentials := ⟨f.username, f.password⟩
          match gnmilib.PopulateMDCredentials ctx uc with
          | (_, some err) => ⟨.fatal err, [], [t], []⟩
          | (ctx, none) =>
            -- Verifing that prefix is following path encoding conventions
            match env.ToGNMIPath f.targetPrefix with
            | .error err => ⟨.fatal ("prefix is not valid xpath: " ++ err), [], [t], []⟩
            | .ok pfx =>
              -- Looping over requested xpath list
              match pathLoop env f.xPathList.flags [] with
              | .error msg => ⟨.fatal msg, [], [t], []⟩
              | .ok pathList =>
                -- Constructing Get Request
                let getReq : gnmi.GetRequest :=
                  ⟨some pfx, pathList, toInt32 f.dataType, toInt32 f.targetEncoding⟩
                match env.Get t ctx getReq with
                | .error err =>
                  ⟨.fatal ("able to execute get request: " ++ err), [], [t], [getReq]⟩
                | .ok getResp =>
                  let (exit, out) := handleResponse env getResp
                  ⟨exit, out, [t], [getReq]⟩

end GnmiGet

/-! ## gnmi-capability -/

namespace GnmiCap

/-- The flag variables of the Capabilities tool after `flag.Parse()`. -/
structure Flags where
  rootCA : String
  cert : String
  key : String
  username : String
  password : String
  targetHostname : String
  targetAddr : String
  insecConn : Bool
  skipVerify : Bool
  timeout : Nat
  deriving DecidableEq, Repr

/-- Source: `const targetPort = 57400`. -/
def targetPort : Nat := 57400

/-- Source: `main`, "Set up a connection to the server": the target address
`t` passed to `grpc.Dial`. -/
def dialTarget (targetAddr : String) : String :=
  if strings.Contains targetAddr ":" then
    targetAddr
  else
    targetAddr ++ ":" ++ toString targetPort

/-- Source: `func main()` of `gnmi-capability/gnmi-cap.go`. -/
def main (env : Env) (f : Flags) : Run :=
  -- Parsing flags
  if len f.targetAddr == 0 then
    ⟨.fatal "addr is manadatory to provide", [], [], []⟩
  else
    -- Setting up grpc options
    let r := gnmilib.SetupGNMISecureTransport env.world
      ⟨f.insecConn, f.skipVerify, f.targetHostname, f.rootCA, f.cert, f.key⟩
    match r.err with
    | some err => ⟨.fatal err, [], [], []⟩
    | none =>
      -- Set up a connection to the server.
      let t := dialTarget f.targetAddr
      match r.dOpts with
      | none =>
        ⟨.panic "runtime error: invalid memory address or nil pointer dereference", [], [], []⟩
      | some dOpts =>
        -- Dialing ...
        match env.Dial t dOpts with
        | some err =>
          ⟨.fatal ("can't not connect to the host " ++ t ++ " due to " ++ err), [], [t], []⟩
        | none =>
          -- Creating context with timeout
          let ctx := Context.Background.WithTimeout f.timeout
          -- Attaching credentiasl to the context
          let uc : gnmilib.UserCredentials := ⟨f.username, f.password⟩
          match gnmilib.PopulateMDCredentials ctx uc with
          | (_, some err) => ⟨.fatal err, [], [t], []⟩
          | (ctx, none) =>
            match env.Capabilities t ctx with
            | .error err => ⟨.fatal ("can't get capabilities: " ++ err), [], [t], []⟩
            | .ok resp =>
              -- Printing message in text form into STDOUT
              ⟨.ok, ["Capabilities Response:\n" ++ env.MarshalTextString resp], [t], []⟩

end GnmiCap

/-! ## Concrete worlds used to evaluate the code -/

/-- A file system with nothing in it: every open fails. The gRPC release is
one that defaults the minimum version. -/
def emptyWorld : World where
  fs := fun _ => .absent "no such file or directory"
  pemCerts := fun _ => []
  X509KeyPair := fun _ _ => .error "tls: failed to find any PEM data in certificate input"
  ParseCertificate := fun _ => .error "x509: malformed certificate"
  newTLSDefaultsMinVersion := true

/-- A file system holding a root CA `ca.pem` (bytes `[1]`, one certificate), a
client certificate `cert.pem` (bytes `[2]`) and its matching key `key.pem`
(bytes `[3]`); every other path is absent. The gRPC release is one that
defaults the minimum version. -/
def pkiWorld : World where
  fs := fun p =>
    if p = "ca.pem" then .content [1]
    else if p = "cert.pem" then .content [2]
    else if p = "key.pem" then .content [3]
    else .absent "no such file or directory"
  pemCerts := fun bs => if bs = [1] then [[10]] else []
  X509KeyPair := fun c k =>
    if c = [2] ∧ k = [3] then .ok ⟨[20], [], [30], none⟩
    else .error "tls: private key does not match public key"
  ParseCertificate := fun der =>
    if der = [20] then .ok ⟨[20]⟩ else .error "x509: malformed certificate"
  newTLSDefaultsMinVersion := true

/-- A stand-in for the gnxi parser that rejects an expression with an opening
bracket that is never closed, or a closing one never opened, and otherwise
returns a path of one element named by the whole expression. -/
def bracketParser (xp : String) : Except String gnmi.Path :=
  if xp.data.count '[' = xp.data.count ']' then .ok ⟨[⟨xp, []⟩]⟩
  else .error "unbalanced brackets"

/-- An environment in which every dial succeeds, the target answers every Get
request with an empty response, and the nil path is printed as `"<nil>"`. -/
def testEnv : Env where
  world := emptyWorld
  Dial := fun _ _ => none
  ToGNMIPath := bracketParser
  Get := fun _ _ _ => .ok ⟨[]⟩
  Capabilities := fun _ _ => .ok ⟨"0.7.0"⟩
  quotePath := fun p => match p with
    | none => "\"<nil>\""
    | some _ => "\"elem\""
  respString := fun _ => ""
  valString := fun _ => ""
  bytesString := fun _ => ""
  jsonIndent := fun bs => if bs = [] then .error "unexpected end of JSON input" else .ok ""
  MarshalTextString := fun r => r.GNMIVersion


/-! ## Theorems -/

open gnmilib

/-- A Go string has length zero exactly when it is the empty string. -/
theorem len_eq_zero_iff (s : String) : len s = 0 ↔ s = "" := by
  obtain ⟨cs⟩ := s
  cases cs with
  | nil => simp [len, String.utf8ByteSize, String.utf8ByteSize.go]
  | cons c cs =>
    have hc := Char.utf8Size_pos c
    have hne : (String.mk (c :: cs)) ≠ "" := by
      intro h
      have := congrArg String.data h
      simp at this
    simp only [len, String.utf8ByteSize, String.utf8ByteSize.go, hne, iff_false]
    omega

/-- Looking a key up after the bindings of another key were filtered out. -/
theorem lookup_filter_ne (md : MD) (k k' : String) (h : k' ≠ k) :
    List.lookup k' (md.filter (fun kv => kv.1 != k)) = List.lookup k' md := by
  induction md with
  | nil => rfl
  | cons kv md ih =>
    obtain ⟨a, vs⟩ := kv
    by_cases hak : a = k
    · subst hak
      have hne : (k' == a) = false := by simpa using h
      simp [List.filter, List.lookup, hne, ih]
    · have hk : (a != k) = true := by simpa using hak
      simp only [List.filter, hk, List.lookup]
      cases hka : (k' == a) <;> simp [ih]

/-- After `md.Set(k, vals...)` with `vals` non-empty, the lower-cased key holds
exactly `vals`. -/
theorem MD.get_Set_self (md : MD) (k : String) (vals : List String) (h : vals ≠ []) :
    (md.Set k vals).get (strings.ToLower k) = some vals := by
  have hl : (vals.length == 0) = false := by
    cases vals with
    | nil => exact absurd rfl h
    | cons v vs => rfl
  simp [MD.Set, MD.get, hl, List.lookup]

/-- The call `md.Set(k, vals...)` leaves every key other than the lower-cased `k`
as it was. -/
theorem MD.get_Set_other (md : MD) (k k' : String) (vals : List String)
    (h : k' ≠ strings.ToLower k) : (md.Set k vals).get k' = md.get k' := by
  unfold MD.Set MD.get
  split
  · rfl
  · have hne : (k' == strings.ToLower k) = false := by simpa using h
    simp only [List.lookup, hne]
    exact lookup_filter_ne md _ _ h

/-- A configuration whose `MinVersion` is set is wrapped unchanged by
`credentials.NewTLS`, whatever the gRPC release. -/
theorem World.NewTLS_of_set (w : World) (c : TLSConfig) (h : c.MinVersion ≠ 0) :
    w.NewTLS c = TransportCredentials.tls c := by
  have hz : (c.MinVersion == 0) = false := by simpa using h
  simp [World.NewTLS, hz]

/-- A release of gRPC that defaults the minimum version wraps a configuration
with an unset `MinVersion` with `MinVersion = VersionTLS12`. -/
theorem World.NewTLS_of_unset_default (w : World) (c : TLSConfig)
    (hw : w.newTLSDefaultsMinVersion = true) (h : c.MinVersion = 0) :
    w.NewTLS c = TransportCredentials.tls { c with MinVersion := VersionTLS12 } := by
  simp [World.NewTLS, hw, h]

/-- A release of gRPC that does not default the minimum version wraps every
configuration unchanged. -/
theorem World.NewTLS_of_legacy (w : World) (c : TLSConfig)
    (hw : w.newTLSDefaultsMinVersion = false) :
    w.NewTLS c = TransportCredentials.tls c := by
  simp [World.NewTLS, hw]

/-- The skip-verify path of the setup in closed form: the configuration handed
to `credentials.NewTLS` has only `InsecureSkipVerify` set, and no file is
accessed. -/
theorem SetupGNMISecureTransport_skip_verify (w : World) (t : TLSInit)
    (hInsec : t.InsecConn = false) (hSkip : t.SkipVerify = true) :
    SetupGNMISecureTransport w t =
      ⟨some [DialOption.WithTransportCredentials (w.NewTLS { InsecureSkipVerify := true })],
        none, []⟩ := by
  simp [SetupGNMISecureTransport, hInsec, hSkip]

/-- C1: with `InsecConn = false` and `SkipVerify = false`, whenever one of
`RootCA`, `Cert`, `Key` is the empty string, `SetupGNMISecureTransport` returns
a non-nil error, whatever the hostname is and whatever the file system holds. -/
theorem C1_missing_file_path_is_error (w : World) (t : TLSInit)
    (hInsec : t.InsecConn = false) (hSkip : t.SkipVerify = false)
    (hEmpty : t.RootCA = "" ∨ t.Cert = "" ∨ t.Key = "") :
    (SetupGNMISecureTransport w t).err ≠ none := by
  have h : (len t.RootCA == 0 || len t.Cert == 0 || len t.Key == 0) = true := by
    rcases hEmpty with h | h | h <;> simp [h, len_eq_zero_iff]
  simp [SetupGNMISecureTransport, hInsec, hSkip, h]

/-- C1 witness: a verifying TLS setup with the key path left empty, on the file
system that holds valid CA and certificate files. -/
theorem C1_missing_file_path_is_error_witness :
    (SetupGNMISecureTransport pkiWorld ⟨false, false, "target", "ca.pem", "cert.pem", ""⟩).err
      ≠ none :=
  C1_missing_file_path_is_error pkiWorld ⟨false, false, "target", "ca.pem", "cert.pem", ""⟩
    rfl rfl (Or.inr (Or.inr rfl))

/-- C2: with `InsecConn = true` the setup returns a nil error and exactly one
dial option, the insecure (no transport security) credentials, and accesses no
file; the result does not depend on any other field nor on the file system. -/
theorem C2_insecure_setup (w : World) (t : TLSInit) (hInsec : t.InsecConn = true) :
    SetupGNMISecureTransport w t =
      ⟨some [DialOption.WithTransportCredentials TransportCredentials.insecure], none, []⟩ := by
  simp [SetupGNMISecureTransport, hInsec]

/-- C2 witness: an insecure setup whose other fields are set and partly name
files that do not exist. -/
theorem C2_insecure_setup_witness :
    SetupGNMISecureTransport pkiWorld ⟨true, false, "target", "ca.pem", "", "nokey.pem"⟩ =
      ⟨some [DialOption.WithTransportCredentials TransportCredentials.insecure], none, []⟩ :=
  C2_insecure_setup pkiWorld ⟨true, false, "target", "ca.pem", "", "nokey.pem"⟩ rfl

/-- C3: with `InsecConn = false` and `SkipVerify = true` the setup returns a nil
error and exactly one TLS transport-credentials option whose configuration has
`InsecureSkipVerify = true`, and accesses no file, whatever the hostname and
the three paths are. -/
theorem C3_skip_verify_setup (w : World) (t : TLSInit)
    (hInsec : t.InsecConn = false) (hSkip : t.SkipVerify = true) :
    ∃ cfg : TLSConfig,
      SetupGNMISecureTransport w t =
        ⟨some [DialOption.WithTransportCredentials (TransportCredentials.tls cfg)], none, []⟩ ∧
      cfg.InsecureSkipVerify = true := by
  rw [SetupGNMISecureTransport_skip_verify w t hInsec hSkip]
  cases hw : w.newTLSDefaultsMinVersion with
  | true =>
    rw [World.NewTLS_of_unset_default w _ hw rfl]
    exact ⟨_, rfl, rfl⟩
  | false =>
    rw [World.NewTLS_of_legacy w _ hw]
    exact ⟨_, rfl, rfl⟩

/-- C3 witness: skip-verify setup with hostname and all three paths empty, on
the empty file system. -/
theorem C3_skip_verify_setup_witness :
    ∃ cfg : TLSConfig,
      SetupGNMISecureTransport emptyWorld ⟨false, true, "", "", "", ""⟩ =
        ⟨some [DialOption.WithTransportCredentials (TransportCredentials.tls cfg)], none, []⟩ ∧
      cfg.InsecureSkipVerify = true :=
  C3_skip_verify_setup emptyWorld ⟨false, true, "", "", "", ""⟩ rfl rfl

/-- The error branch of `PopulateMDCredentials`. -/
theorem PopulateMDCredentials_empty (ctx : Context) (uc : UserCredentials)
    (h : uc.Username = "") :
    PopulateMDCredentials ctx uc =
      (ctx, some "populateCredentials: username must be provided") := by
  have hl : (len uc.Username == 0) = true := by simp [len_eq_zero_iff, h]
  unfold PopulateMDCredentials
  rw [if_pos hl]

/-- The success branch of `PopulateMDCredentials`, in closed form. -/
theorem PopulateMDCredentials_nonempty (ctx : Context) (uc : UserCredentials)
    (h : uc.Username ≠ "") :
    PopulateMDCredentials ctx uc =
      (ctx.NewOutgoingContext
        (if uc.Password = "" then ctx.FromOutgoingContext.1.Set "username" [uc.Username]
         else (ctx.FromOutgoingContext.1.Set "username" [uc.Username]).Set "password"
           [uc.Password]), none) := by
  have hl : ¬ (len uc.Username == 0) = true := by simp [len_eq_zero_iff, h]
  unfold PopulateMDCredentials
  rw [if_neg hl]
  have hmd0 : (if (!ctx.FromOutgoingContext.2) = true then ([] : MD)
      else ctx.FromOutgoingContext.1) = ctx.FromOutgoingContext.1 := by
    unfold Context.FromOutgoingContext
    cases ctx.outgoingMD <;> rfl
  by_cases hP : uc.Password = ""
  · have hlp : ¬ (len uc.Password != 0) = true := by simp [len_eq_zero_iff, hP]
    simp only [hmd0, if_neg hlp, if_pos hP]
  · have hlp : (len uc.Password != 0) = true := by simp [len_eq_zero_iff, hP]
    simp only [hmd0, if_pos hlp, if_neg hP]

/-- C4: `PopulateMDCredentials` returns a non-nil error exactly when `Username`
is the empty string, and then the context it returns is the input context
(its outgoing metadata included). -/
theorem C4_populate_error_iff_empty_username (ctx : Context) (uc : UserCredentials) :
    ((PopulateMDCredentials ctx uc).2 ≠ none ↔ uc.Username = "") ∧
    (uc.Username = "" → (PopulateMDCredentials ctx uc).1 = ctx) := by
  by_cases h : uc.Username = ""
  · rw [PopulateMDCredentials_empty ctx uc h]
    simp [h]
  · rw [PopulateMDCredentials_nonempty ctx uc h]
    simp [h]

/-- C4 witness: an empty username on a context that already carries metadata. -/
theorem C4_populate_error_iff_empty_username_witness :
    (PopulateMDCredentials ⟨some 10, some [("trace", ["1"])]⟩ ⟨"", "secret"⟩).2 ≠ none ∧
    (PopulateMDCredentials ⟨some 10, some [("trace", ["1"])]⟩ ⟨"", "secret"⟩).1 =
      ⟨some 10, some [("trace", ["1"])]⟩ :=
  ⟨(C4_populate_error_iff_empty_username ⟨some 10, some [("trace", ["1"])]⟩ ⟨"", "secret"⟩).1.2 rfl,
   (C4_populate_error_iff_empty_username ⟨some 10, some [("trace", ["1"])]⟩ ⟨"", "secret"⟩).2 rfl⟩

/-- C5: with a non-empty `Username` the call succeeds and the outgoing metadata
of the returned context is the input's (empty when it had none) in which
`username` holds exactly `[Username]`, `password` holds exactly `[Password]`
when `Password` is non-empty and keeps its values when it is empty, and every
other key keeps its values. -/
theorem C5_populate_metadata (ctx : Context) (uc : UserCredentials) (hUser : uc.Username ≠ "") :
    ∃ md : MD,
      (PopulateMDCredentials ctx uc).2 = none ∧
      (PopulateMDCredentials ctx uc).1.FromOutgoingContext = (md, true) ∧
      md.get "username" = some [uc.Username] ∧
      (uc.Password ≠ "" → md.get "password" = some [uc.Password]) ∧
      (uc.Password = "" → md.get "password" = ctx.FromOutgoingContext.1.get "password") ∧
      ∀ k : String, k ≠ "username" → k ≠ "password" →
        md.get k = ctx.FromOutgoingContext.1.get k := by
  have hu : strings.ToLower "username" = "username" := by decide
  have hp : strings.ToLower "password" = "password" := by decide
  have hpu : ("password" : String) ≠ "username" := by decide
  have hself := MD.get_Set_self ctx.FromOutgoingContext.1 "username" [uc.Username] (by simp)
  rw [hu] at hself
  rw [PopulateMDCredentials_nonempty ctx uc hUser]
  by_cases hP : uc.Password = ""
  · refine ⟨ctx.FromOutgoingContext.1.Set "username" [uc.Username], rfl, ?_, hself, ?_, ?_, ?_⟩
    · rw [if_pos hP]; rfl
    · intro h; exact absurd hP h
    · intro _
      exact MD.get_Set_other _ "username" "password" _ (by rw [hu]; exact hpu)
    · intro k hk _
      exact MD.get_Set_other _ "username" k _ (by rw [hu]; exact hk)
  · refine ⟨(ctx.FromOutgoingContext.1.Set "username" [uc.Username]).Set "password"
      [uc.Password], rfl, ?_, ?_, ?_, ?_, ?_⟩
    · rw [if_neg hP]; rfl
    · rw [MD.get_Set_other _ "password" "username" _ (by rw [hp]; exact hpu.symm)]
      exact hself
    · intro _
      have := MD.get_Set_self (ctx.FromOutgoingContext.1.Set "username" [uc.Username])
        "password" [uc.Password] (by simp)
      rwa [hp] at this
    · intro h; exact absurd h hP
    · intro k hk hk2
      rw [MD.get_Set_other _ "password" k _ (by rw [hp]; exact hk2)]
      exact MD.get_Set_other _ "username" k _ (by rw [hu]; exact hk)

/-- C5 witness: credentials `admin` / `secret` attached to a context that
already carries `username`, `password` and `trace` metadata. -/
theorem C5_populate_metadata_witness :
    ∃ md : MD,
      (PopulateMDCredentials
        ⟨none, some [("username", ["old"]), ("trace", ["1", "2"]), ("password", ["p", "q"])]⟩
        ⟨"admin", "secret"⟩).2 = none ∧
      (PopulateMDCredentials
        ⟨none, some [("username", ["old"]), ("trace", ["1", "2"]), ("password", ["p", "q"])]⟩
        ⟨"admin", "secret"⟩).1.FromOutgoingContext = (md, true) ∧
      md.get "username" = some ["admin"] ∧
      md.get "password" = some ["secret"] ∧
      md.get "trace" = some ["1", "2"] := by
  obtain ⟨md, h1, h2, h3, h4, _, h6⟩ := C5_populate_metadata
    ⟨none, some [("username", ["old"]), ("trace", ["1", "2"]), ("password", ["p", "q"])]⟩
    ⟨"admin", "secret"⟩ (by decide)
  exact ⟨md, h1, h2, h3, h4 (by decide), h6 "trace" (by decide) (by decide)⟩

/-- Go `strings.Contains(s, ":")` holds exactly when `s` has a `:` character. -/
theorem strings.Contains_colon (s : String) :
    strings.Contains s ":" = true ↔ ':' ∈ s.data := by
  obtain ⟨cs⟩ := s
  simp only [strings.Contains]
  induction cs with
  | nil => simp [List.isPrefixOf]
  | cons c cs ih =>
    simp only [List.tails, List.any_cons, Bool.or_eq_true, ih, List.mem_cons]
    simp only [List.isPrefixOf, Bool.and_true, beq_iff_eq]

/-- The decimal text of the default port. -/
theorem toString_targetPort : toString GnmiGet.targetPort = "57400" := by decide

/-- C6: for every non-empty `-addr` value `a` the Get tool and the Capabilities
tool compute the same dial target: `a` followed by `:57400` when `a` has no
`:` character, and `a` itself when it has one. -/
theorem C6_dial_target (a : String) (_ha : a ≠ "") :
    GnmiGet.dialTarget a = GnmiCap.dialTarget a ∧
    (':' ∉ a.data → GnmiGet.dialTarget a = a ++ ":57400") ∧
    (':' ∈ a.data → GnmiGet.dialTarget a = a) := by
  refine ⟨rfl, ?_, ?_⟩
  · intro h
    have hc : ¬ strings.Contains a ":" = true := by rwa [strings.Contains_colon]
    unfold GnmiGet.dialTarget
    rw [if_neg hc, toString_targetPort, String.append_assoc]
    rfl
  · intro h
    have hc : strings.Contains a ":" = true := by rwa [strings.Contains_colon]
    unfold GnmiGet.dialTarget
    rw [if_pos hc]

/-- C6 witness: `10.0.0.1` resolves to `10.0.0.1:57400` and `10.0.0.1:50000` is
used verbatim, by both tools. -/
theorem C6_dial_target_witness :
    (GnmiGet.dialTarget "10.0.0.1" = "10.0.0.1:57400" ∧
      GnmiCap.dialTarget "10.0.0.1" = "10.0.0.1:57400") ∧
    (GnmiGet.dialTarget "10.0.0.1:50000" = "10.0.0.1:50000" ∧
      GnmiCap.dialTarget "10.0.0.1:50000" = "10.0.0.1:50000") := by
  have h1 := C6_dial_target "10.0.0.1" (by decide)
  have h2 := C6_dial_target "10.0.0.1:50000" (by decide)
  exact ⟨⟨h1.2.1 (by decide), h1.1 ▸ h1.2.1 (by decide)⟩,
    ⟨h2.2.2 (by decide), h2.1 ▸ h2.2.2 (by decide)⟩⟩

/-- C7 (the code at the failing inputs): for a Get response whose Notification
list is empty, or whose first notification has an empty Update list, the
response handling of the Get tool indexes out of range and the run ends in an
unrecovered run-time panic, not in a handled error. -/
theorem C7_empty_response_panics (env : Env) (getResp : gnmi.GetResponse)
    (h : getResp.Notification = [] ∨
      ∃ n0 rest, getResp.Notification = n0 :: rest ∧ n0.Update = []) :
    (GnmiGet.handleResponse env getResp).1 =
      Exit.panic "runtime error: index out of range [0] with length 0" := by
  rcases h with h | ⟨n0, rest, h, hu⟩
  · simp [GnmiGet.handleResponse, h]
  · simp [GnmiGet.handleResponse, h, hu]

/-- C7 witness: a response with no notification, and one whose only
notification has no update. -/
theorem C7_empty_response_panics_witness :
    (GnmiGet.handleResponse testEnv ⟨[]⟩).1 =
      Exit.panic "runtime error: index out of range [0] with length 0" ∧
    (GnmiGet.handleResponse testEnv ⟨[⟨0, []⟩]⟩).1 =
      Exit.panic "runtime error: index out of range [0] with length 0" :=
  ⟨C7_empty_response_panics testEnv ⟨[]⟩ (Or.inl rfl),
   C7_empty_response_panics testEnv ⟨[⟨0, []⟩]⟩ (Or.inr ⟨⟨0, []⟩, [], rfl, rfl⟩)⟩

/-- A whole run of the Get tool against a target that answers with an empty
response: the request is sent and the run crashes. -/
theorem GnmiGet.main_empty_response_crashes :
    (GnmiGet.main testEnv
      ⟨"", "", "", "admin", "admin", "", "10.0.0.1", true, false, 10, "", ⟨["/a"]⟩, 4, 0⟩).exit =
      Exit.panic "runtime error: index out of range [0] with length 0" := by
  decide

/-- When the xpath loop fails, its diagnostic is the fixed text followed by the
rendering of the nil path. -/
theorem GnmiGet.pathLoop_error_msg (env : Env) (xs : List String) (acc : List gnmi.Path)
    (msg : String) (h : GnmiGet.pathLoop env xs acc = .error msg) :
    msg = "can't parse provided xpath: " ++ env.quotePath none := by
  induction xs generalizing acc with
  | nil => simp [GnmiGet.pathLoop] at h
  | cons xp rest ih =>
    unfold GnmiGet.pathLoop at h
    cases hp : env.ToGNMIPath xp with
    | error e =>
      rw [hp] at h
      simp only [Except.error.injEq] at h
      exact h.symm
    | ok g =>
      rw [hp] at h
      exact ih _ h

/-- C10 (the code at the failing inputs): whichever expressions fail to parse,
the fatal diagnostic of the xpath loop is the same text; it names neither the
failing expression nor the parse error. -/
theorem C10_parse_diagnostic_same (env : Env) (xs ys : List String) (mx my : String)
    (hx : GnmiGet.pathLoop env xs [] = .error mx)
    (hy : GnmiGet.pathLoop env ys [] = .error my) : mx = my := by
  rw [GnmiGet.pathLoop_error_msg env xs [] mx hx, GnmiGet.pathLoop_error_msg env ys [] my hy]

/-- C10 witness: the expressions `/a[` and `/b[`, each with an unclosed
bracket, give the same diagnostic. -/
theorem C10_parse_diagnostic_same_witness :
    GnmiGet.pathLoop testEnv ["/a["] [] = .error "can't parse provided xpath: \"<nil>\"" ∧
    GnmiGet.pathLoop testEnv ["/ok", "/b["] [] =
      .error "can't parse provided xpath: \"<nil>\"" ∧
    ("can't parse provided xpath: \"<nil>\"" : String) = "can't parse provided xpath: \"<nil>\"" :=
  ⟨rfl, rfl, C10_parse_diagnostic_same testEnv ["/a["] ["/ok", "/b["] _ _ rfl rfl⟩

/-- The verifying path of the setup, when the three files load: the result in
closed form. -/
theorem SetupGNMISecureTransport_verify_loads (w : World) (t : TLSInit)
    (ca c k : Bytes) (pair : TLSCertificate) (leaf : X509Certificate)
    (hInsec : t.InsecConn = false) (hSkip : t.SkipVerify = false)
    (hCA : t.RootCA ≠ "") (hCert : t.Cert ≠ "") (hKey : t.Key ≠ "")
    (hca : w.fs t.RootCA = .content ca) (hpem : w.pemCerts ca ≠ [])
    (hc : w.fs t.Cert = .content c) (hk : w.fs t.Key = .content k)
    (hpair : w.X509KeyPair c k = .ok pair)
    (hleaf : w.ParseCertificate pair.Certificate0 = .ok leaf) :
    SetupGNMISecureTransport w t =
      ⟨some [DialOption.WithTransportCredentials (TransportCredentials.tls
          { InsecureSkipVerify := false
            ServerName := t.TargetHostname
            RootCAs := some ⟨w.pemCerts ca⟩
            Certificates := [{ pair with Leaf := some leaf }]
            MinVersion := VersionTLS12 })],
        none, [t.RootCA, t.Cert, t.Key]⟩ := by
  have hlen : (len t.RootCA == 0 || len t.Cert == 0 || len t.Key == 0) = false := by
    simp [len_eq_zero_iff, hCA, hCert, hKey]
  have hpem2 : (w.pemCerts ca).isEmpty = false := by
    cases hp : w.pemCerts ca with
    | nil => exact absurd hp hpem
    | cons x xs => rfl
  have hset : ∀ c : TLSConfig, c.MinVersion = VersionTLS12 →
      w.NewTLS c = TransportCredentials.tls c := by
    intro c hc
    exact World.NewTLS_of_set w c (by rw [hc]; decide)
  simp [SetupGNMISecureTransport, hInsec, hSkip, hlen, World.Open, World.ReadAll, hca,
    World.AppendCertsFromPEM, World.NewCertPool, hpem2, World.LoadX509KeyPair, World.ReadFile,
    hc, hk, hpair, hleaf, hset]

/-- C8 (counterexample): with an empty hostname and valid, matching CA,
certificate and key files, the verifying setup succeeds; the server name of the
TLS configuration is the empty string. -/
theorem C8_empty_hostname_succeeds :
    SetupGNMISecureTransport pkiWorld ⟨false, false, "", "ca.pem", "cert.pem", "key.pem"⟩ =
      ⟨some [DialOption.WithTransportCredentials (TransportCredentials.tls
          { InsecureSkipVerify := false
            ServerName := ""
            RootCAs := some ⟨[[10]]⟩
            Certificates := [⟨[20], [], [30], some ⟨[20]⟩⟩]
            MinVersion := VersionTLS12 })],
        none, ["ca.pem", "cert.pem", "key.pem"]⟩ := by
  decide

/-- C8 (amended): with `InsecConn = false`, `SkipVerify = false` and an empty
`TargetHostname`, the setup returns a non-nil error when one of `RootCA`,
`Cert`, `Key` is empty, and when the three are non-empty and name readable,
valid, matching files it returns a nil error and one TLS option whose server
name is the empty string: the hostname is not required. -/
theorem C8_empty_hostname_amended (w : World) (t : TLSInit)
    (hInsec : t.InsecConn = false) (hSkip : t.SkipVerify = false)
    (hHost : t.TargetHostname = "") :
    ((t.RootCA = "" ∨ t.Cert = "" ∨ t.Key = "") →
      (SetupGNMISecureTransport w t).err ≠ none) ∧
    (∀ (ca c k : Bytes) (pair : TLSCertificate) (leaf : X509Certificate),
      t.RootCA ≠ "" → t.Cert ≠ "" → t.Key ≠ "" →
      w.fs t.RootCA = .content ca → w.pemCerts ca ≠ [] →
      w.fs t.Cert = .content c → w.fs t.Key = .content k →
      w.X509KeyPair c k = .ok pair → w.ParseCertificate pair.Certificate0 = .ok leaf →
      SetupGNMISecureTransport w t =
        ⟨some [DialOption.WithTransportCredentials (TransportCredentials.tls
            { InsecureSkipVerify := false
              ServerName := ""
              RootCAs := some ⟨w.pemCerts ca⟩
              Certificates := [{ pair with Leaf := some leaf }]
              MinVersion := VersionTLS12 })],
          none, [t.RootCA, t.Cert, t.Key]⟩) := by
  constructor
  · intro hEmpty
    have h : (len t.RootCA == 0 || len t.Cert == 0 || len t.Key == 0) = true := by
      rcases hEmpty with h | h | h <;> simp [h, len_eq_zero_iff]
    simp [SetupGNMISecureTransport, hInsec, hSkip, h]
  · intro ca c k pair leaf hCA hCert hKey hca hpem hc hk hpair hleaf
    rw [SetupGNMISecureTransport_verify_loads w t ca c k pair leaf hInsec hSkip hCA hCert hKey
      hca hpem hc hk hpair hleaf, hHost]

/-- C8 witness: the empty hostname without a key path fails, and with the three
valid files succeeds. -/
theorem C8_empty_hostname_amended_witness :
    (SetupGNMISecureTransport pkiWorld ⟨false, false, "", "ca.pem", "cert.pem", ""⟩).err ≠ none ∧
    (SetupGNMISecureTransport pkiWorld
      ⟨false, false, "", "ca.pem", "cert.pem", "key.pem"⟩).err = none := by
  refine ⟨(C8_empty_hostname_amended pkiWorld ⟨false, false, "", "ca.pem", "cert.pem", ""⟩
      rfl rfl rfl).1 (Or.inr (Or.inr rfl)), ?_⟩
  rw [(C8_empty_hostname_amended pkiWorld ⟨false, false, "", "ca.pem", "cert.pem", "key.pem"⟩
      rfl rfl rfl).2 [1] [2] [3] ⟨[20], [], [30], none⟩ ⟨[20]⟩
      (by decide) (by decide) (by decide) (by decide) (by decide) (by decide) (by decide)
      rfl rfl]

/-- Folding `Set` over the `-xpath` occurrences appends them in order. -/
theorem GnmiGet.foldl_Set_flags (occ : List String) (f : GnmiGet.multiFlag) :
    (occ.foldl (fun f s => (GnmiGet.multiFlag.Set f s).1) f).flags = f.flags ++ occ := by
  induction occ generalizing f with
  | nil => simp
  | cons s rest ih =>
    rw [List.foldl_cons, ih]
    simp [GnmiGet.multiFlag.Set]

/-- After flag parsing `xPathList.flags` holds the `-xpath` values in the order
given, one per occurrence. -/
theorem GnmiGet.parseXPathFlags_flags (occ : List String) :
    (GnmiGet.parseXPathFlags occ).flags = occ := by
  simp [GnmiGet.parseXPathFlags, GnmiGet.foldl_Set_flags]

/-- The xpath loop succeeds exactly when every expression parses, and then it
appends the parsed paths in order, one per expression. -/
theorem GnmiGet.pathLoop_ok_iff (env : Env) (xs : List String) (acc ps : List gnmi.Path) :
    GnmiGet.pathLoop env xs acc = .ok ps ↔
      ∃ qs, ps = acc ++ qs ∧ List.Forall₂ (fun xp p => env.ToGNMIPath xp = .ok p) xs qs := by
  induction xs generalizing acc with
  | nil =>
    simp only [GnmiGet.pathLoop, Except.ok.injEq, List.forall₂_nil_left_iff]
    constructor
    · intro h; exact ⟨[], by simp [h], rfl⟩
    · rintro ⟨qs, h, rfl⟩; simp [h]
  | cons xp rest ih =>
    unfold GnmiGet.pathLoop
    cases hp : env.ToGNMIPath xp with
    | error e =>
      simp only [List.forall₂_cons_left_iff, hp]
      constructor
      · intro h; cases h
      · rintro ⟨qs, -, p, ps2, h, -⟩; cases h
    | ok g =>
      simp only [ih, List.forall₂_cons_left_iff, hp, Except.ok.injEq]
      constructor
      · rintro ⟨qs, h, hf⟩
        exact ⟨g :: qs, by simp [h], g, qs, rfl, hf, rfl⟩
      · rintro ⟨qs, h, p, ps2, hg, hf, rfl⟩
        subst hg
        exact ⟨ps2, by simp [h], hf⟩

/-- The xpath loop fails exactly when some expression fails to parse, and it
fails at the first such expression: all expressions before it parsed. -/
theorem GnmiGet.pathLoop_error_iff (env : Env) (xs : List String) (acc : List gnmi.Path) :
    (∃ msg, GnmiGet.pathLoop env xs acc = .error msg) ↔
      ∃ pre xp post e, xs = pre ++ xp :: post ∧
        (∀ x ∈ pre, ∃ p, env.ToGNMIPath x = .ok p) ∧ env.ToGNMIPath xp = .error e := by
  induction xs generalizing acc with
  | nil => simp [GnmiGet.pathLoop]
  | cons x rest ih =>
    unfold GnmiGet.pathLoop
    cases hp : env.ToGNMIPath x with
    | error e =>
      constructor
      · intro _
        exact ⟨[], x, rest, e, rfl, by simp, hp⟩
      · intro _
        exact ⟨_, rfl⟩
    | ok g =>
      simp only [ih]
      constructor
      · rintro ⟨pre, xp, post, e, rfl, hpre, he⟩
        refine ⟨x :: pre, xp, post, e, rfl, ?_, he⟩
        intro y hy
        rcases List.mem_cons.mp hy with rfl | hy
        · exact ⟨g, hp⟩
        · exact hpre y hy
      · rintro ⟨pre, xp, post, e, hxs, hpre, he⟩
        cases pre with
        | nil =>
          simp only [List.nil_append, List.cons.injEq] at hxs
          rw [← hxs.1, hp] at he
          cases he
        | cons y pre2 =>
          simp only [List.cons_append, List.cons.injEq] at hxs
          exact ⟨pre2, xp, post, e, hxs.2, fun z hz => hpre z (List.mem_cons_of_mem _ hz), he⟩

/-- A run of the Get tool whose xpath loop fails sends no Get request. -/
theorem GnmiGet.main_no_rpc_on_parse_error (env : Env) (f : GnmiGet.Flags) (msg : String)
    (h : GnmiGet.pathLoop env f.xPathList.flags [] = .error msg) :
    (GnmiGet.main env f).rpcs = [] := by
  unfold GnmiGet.main
  simp only [h]
  repeat' split
  all_goals rfl

/-- A run of the Get tool dials at most once, and then the target computed by
`dialTarget` from the `-addr` value. -/
theorem GnmiGet.get_main_dialed (env : Env) (f : GnmiGet.Flags) :
    (GnmiGet.main env f).dialed = [] ∨
      (GnmiGet.main env f).dialed = [GnmiGet.dialTarget f.targetAddr] := by
  unfold GnmiGet.main
  dsimp only
  repeat' split
  all_goals first | exact Or.inl rfl | exact Or.inr rfl

/-- A run of the Capabilities tool dials at most once, and then the target
computed by `dialTarget` from the `-addr` value. -/
theorem GnmiCap.cap_main_dialed (env : Env) (f : GnmiCap.Flags) :
    (GnmiCap.main env f).dialed = [] ∨
      (GnmiCap.main env f).dialed = [GnmiCap.dialTarget f.targetAddr] := by
  unfold GnmiCap.main
  dsimp only
  repeat' split
  all_goals first | exact Or.inl rfl | exact Or.inr rfl

end GnmiPg
